import Mathlib

/-!
Verification of the trading-card collection manager.

This file shallowly embeds the core of the backend in Lean:
field validators and pure card operations (`services/card_operations.py`),
the pydantic models `CardCreate` / `CardUpdate` (`models/card.py`),
the local SQLite-backed repository (`repositories/card_repository.py` with
`database/schema.py`), the Supabase REST repository
(`repositories/supabase_card_repository.py`), the shared service layer
(`services/shared_card_service.py`), the Pokemon-API-facing card service
(`services/card_service.py`, `services/pokemon_api_service.py`), and the
repository factory with its configuration (`repositories/repository_factory.py`,
`config.py`).

Python dictionaries of card data are modelled as association lists over a
dynamic `Value` type; machine-level details that cannot influence the
verified properties (logging, connection handling) are omitted.
-/

namespace TCard

/-- A dynamically typed Python/JSON value as it flows through the card code:
a string, an integer, a boolean, or None/NULL. -/
inductive Value where
  | vStr (s : String)
  | vInt (n : Int)
  | vBool (b : Bool)
  | vNull
deriving DecidableEq

/-- A Python dict of card data: an association list with distinct keys,
in insertion order (Python dicts preserve insertion order). -/
abbrev Dict := List (String × Value)

/-- Dict key lookup (`d.get(k)` / `d[k]`, returning None when absent). -/
def dget : Dict → String → Option Value
  | [], _ => none
  | (a, v) :: t, k => if a = k then some v else dget t k

/-- Dict lookup with a default (`d.get(k, dflt)`). -/
def dgetD (d : Dict) (k : String) (dflt : Value) : Value := (dget d k).getD dflt

/-- Dict assignment `d[k] = v`: overwrite in place if the key exists,
append otherwise (Python insertion-order semantics). -/
def dset : Dict → String → Value → Dict
  | [], k, v => [(k, v)]
  | (a, w) :: t, k, v => if a = k then (a, v) :: t else (a, w) :: dset t k v

/-- Python dict merge `{**a, **b}`: keys of `a` in order with values
overridden by `b`, then the keys only in `b` in order. -/
def dmerge (a b : Dict) : Dict :=
  (a.map fun kv => match dget b kv.1 with | some v => (kv.1, v) | none => kv)
    ++ b.filter fun kv => (dget a kv.1).isNone

/-- Python truthiness for the values card code branches on. -/
def pyTruthy : Value → Bool
  | .vBool b => b
  | .vInt n => n != 0
  | .vStr s => s != ""
  | .vNull => false

/-! ### Python string helpers

String operations are carried out on `List Char` so that every definition
evaluates inside the kernel. -/

/-- Whitespace as stripped by Python `str.strip()` (space, tab, newline,
carriage return, vertical tab, form feed). -/
def pyWS (c : Char) : Bool :=
  c = ' ' || c = '\t' || c = '\n' || c = '\r' || c.toNat = 11 || c.toNat = 12

/-- Strip leading and trailing whitespace from a character list. -/
def trimChars (l : List Char) : List Char :=
  ((l.dropWhile pyWS).reverse.dropWhile pyWS).reverse

/-- Python `s.strip()`. -/
def pyStrip (s : String) : String := String.mk (trimChars s.data)

/-- Python `len(s)`: the number of code points. -/
def pyLen (s : String) : Nat := s.data.length

/-- ASCII lower-casing of one character, as applied by SQLite `LIKE`,
PostgREST `ilike` and Python `.lower()` on the ASCII range. -/
def foldChar (c : Char) : Char :=
  if 65 ≤ c.toNat && c.toNat ≤ 90 then Char.ofNat (c.toNat + 32) else c

/-- All suffixes of a list, longest first, ending with `[]`. -/
def suffixes : List Char → List (List Char)
  | [] => [[]]
  | c :: t => (c :: t) :: suffixes t

/-- Character-list prefix test under plain equality. -/
def prefixFold : List Char → List Char → Bool
  | [], _ => true
  | _ :: _, [] => false
  | a :: t, b :: s => (a == b) && prefixFold t s

/-- `t` occurs as a contiguous sublist of `s`. -/
def subPlain (t s : List Char) : Bool := (suffixes s).any (prefixFold t)

/-- Python `needle in hay.lower()` for an ASCII needle: case-insensitive
substring containment. -/
def lowerContains (needle hay : String) : Bool :=
  subPlain (needle.data.map foldChar) (hay.data.map foldChar)

/-- SQL `LIKE`/`ILIKE` pattern matching, case-insensitive on ASCII as in
SQLite default `LIKE` and PostgREST `ilike`: `%` matches any sequence,
`_` matches any single character. -/
def likeM : List Char → List Char → Bool
  | [], s => s.isEmpty
  | '%' :: p, s => (suffixes s).any (likeM p)
  | '_' :: p, s =>
    (match s with
      | [] => false
      | _ :: s' => likeM p s')
  | c :: p, s =>
    (match s with
      | [] => false
      | d :: s' => (foldChar c == foldChar d) && likeM p s')

/-- The `%term%` pattern the local repository sends for a name search.
(The remote repository builds its pattern through PostgREST `*` aliasing
instead; see `supabaseFindByName`.) -/
def likePat (term : String) : List Char := '%' :: term.data ++ ['%']

/-- PostgREST rewrites every `*` in an `ilike` query value to the `%`
wildcard; this is the per-character translation it applies. -/
def pgStar (c : Char) : Char := if c = '*' then '%' else c

/-- The spec-side notion for `find_by_name`: the term occurs in the name as
a case-insensitive substring (ASCII case folding). -/
def containsCI (term name : String) : Bool :=
  subPlain (term.data.map foldChar) (name.data.map foldChar)

/-- A search term is wildcard-free when it uses neither `%` nor `_`. -/
def noWild (term : String) : Bool :=
  term.data.all fun c => c ≠ '%' && c ≠ '_'

/-- A term behaves literally in the remote backend's query only when it
also contains no `*` (which PostgREST would rewrite to `%`) and is ASCII
(Postgres `ILIKE` may fold non-ASCII letters per locale, which the ASCII
model here does not capture). -/
def pgSafeTerm (term : String) : Bool :=
  term.data.all fun c => c ≠ '*' && c.toNat < 128

/-! ### Field validators (`services/card_operations.py`) -/

/-- `validate_card_name`: reject empty/whitespace-only or over-long names,
return the stripped name (card_operations.py lines 13-22). -/
def validate_card_name (name : String) : Except String String :=
  if name = "" || pyStrip name = "" then .error "Card name cannot be empty"
  else
    let cleaned := pyStrip name
    if 100 < pyLen cleaned then .error "Card name cannot exceed 100 characters"
    else .ok cleaned

/-- `validate_card_set`: empty input defaults to Unknown, otherwise the
stripped set name of at most 100 characters (card_operations.py lines 24-33). -/
def validate_card_set (set_name : String) : Except String String :=
  if set_name = "" then .ok "Unknown"
  else
    let cleaned := pyStrip set_name
    if 100 < pyLen cleaned then .error "Set name cannot exceed 100 characters"
    else .ok cleaned

/-- `validate_card_quantity` (card_operations.py lines 35-46). A Python
`bool` passes the `isinstance(quantity, int)` check because `bool`
subclasses `int`; the original value is returned unchanged. -/
def validate_card_quantity (quantity : Value) : Except String Value :=
  match quantity with
  | .vInt n =>
    if n < 1 then .error "Quantity must be at least 1"
    else if 999 < n then .error "Quantity cannot exceed 999"
    else .ok (.vInt n)
  | .vBool b =>
    if b then .ok (.vBool b) else .error "Quantity must be at least 1"
  | _ => .error "Quantity must be an integer"

/-- `validate_card_number` (card_operations.py lines 48-57): falsy input
becomes None, otherwise strip and bound by 20 characters. A non-string
truthy value would hit `.strip()` and raise. -/
def validate_card_number (card_number : Value) : Except String Value :=
  match card_number with
  | .vNull => .ok .vNull
  | .vStr s =>
    if s = "" then .ok .vNull
    else if 20 < pyLen (pyStrip s) then .error "Card number cannot exceed 20 characters"
    else .ok (.vStr (pyStrip s))
  | .vBool b => if b then .error "AttributeError: bool has no strip" else .ok .vNull
  | .vInt n => if n = 0 then .ok .vNull else .error "AttributeError: int has no strip"

/-- `validate_card_rarity` (card_operations.py lines 59-68): like
`validate_card_number` with a 50 character bound. -/
def validate_card_rarity (rarity : Value) : Except String Value :=
  match rarity with
  | .vNull => .ok .vNull
  | .vStr s =>
    if s = "" then .ok .vNull
    else if 50 < pyLen (pyStrip s) then .error "Rarity cannot exceed 50 characters"
    else .ok (.vStr (pyStrip s))
  | .vBool b => if b then .error "AttributeError: bool has no strip" else .ok .vNull
  | .vInt n => if n = 0 then .ok .vNull else .error "AttributeError: int has no strip"

/-! ### The pydantic models (`models/card.py`)

`CardCreate` and `CardUpdate` declare exactly six fields. Pydantic v2
ignores extra constructor keys by default, so `model_dump()` on a model
built from a dict returns only the declared fields, in declaration order. -/

/-- A required pydantic `str` field with length bounds. -/
def pyFieldStr (v : Value) (minL maxL : Nat) : Except String String :=
  match v with
  | .vStr s =>
    if minL ≤ pyLen s && pyLen s ≤ maxL then .ok s
    else .error "String should have valid length"
  | _ => .error "Input should be a valid string"

/-- An optional pydantic `str` field with length bounds (None allowed). -/
def pyFieldOptStr (v : Value) (minL maxL : Nat) : Except String Value :=
  match v with
  | .vNull => .ok .vNull
  | .vStr s =>
    if minL ≤ pyLen s && pyLen s ≤ maxL then .ok (.vStr s)
    else .error "String should have valid length"
  | _ => .error "Input should be a valid string"

/-- A pydantic `int` field with `ge=1`. Pydantic v2 rejects booleans for
int fields. -/
def pyFieldIntGe1 (v : Value) : Except String Int :=
  match v with
  | .vInt n => if 1 ≤ n then .ok n else .error "Input should be greater than or equal to 1"
  | _ => .error "Input should be a valid integer"

/-- A pydantic `bool` field; ints 0/1 are coerced. -/
def pyFieldBool (v : Value) : Except String Bool :=
  match v with
  | .vBool b => .ok b
  | .vInt n =>
    if n = 0 then .ok false
    else if n = 1 then .ok true
    else .error "Input should be a valid boolean"
  | _ => .error "Input should be a valid boolean"

/-- `CardCreate(**d).model_dump()` (models/card.py lines 6-13): validate
the six declared fields, apply defaults, and return only those six keys.
Extra keys such as `date_added` and `user_id` are silently dropped. -/
def cardCreateDump (d : Dict) : Except String Dict := do
  let name ← (match dget d "name" with
    | none => .error "Field required: name"
    | some v => pyFieldStr v 1 100)
  let set_name ← (match dget d "set_name" with
    | none => .ok "Unknown"
    | some v => pyFieldStr v 0 100)
  let card_number ← (match dget d "card_number" with
    | none => .ok Value.vNull
    | some v => pyFieldOptStr v 0 20)
  let rarity ← (match dget d "rarity" with
    | none => .ok Value.vNull
    | some v => pyFieldOptStr v 0 50)
  let quantity ← (match dget d "quantity" with
    | none => .ok (1 : Int)
    | some v => pyFieldIntGe1 v)
  let is_favorite ← (match dget d "is_favorite" with
    | none => .ok false
    | some v => pyFieldBool v)
  .ok [("name", .vStr name), ("set_name", .vStr set_name),
       ("card_number", card_number), ("rarity", rarity),
       ("quantity", .vInt quantity), ("is_favorite", .vBool is_favorite)]

/-- `CardUpdate(**full).model_dump(exclude_unset=True)` (models/card.py
lines 15-22): every declared field is optional; exactly the declared
fields present in the input dict are validated and returned, in
declaration order; extra keys (`id`, `date_added`) are ignored. -/
def cardUpdateDumpExcludeUnset (full : Dict) : Except String Dict := do
  let p1 : Dict ← (match dget full "name" with
    | none => .ok []
    | some v => do let w ← pyFieldOptStr v 1 100; .ok [("name", w)])
  let p2 : Dict ← (match dget full "set_name" with
    | none => .ok []
    | some v => do let w ← pyFieldOptStr v 0 100; .ok [("set_name", w)])
  let p3 : Dict ← (match dget full "card_number" with
    | none => .ok []
    | some v => do let w ← pyFieldOptStr v 0 20; .ok [("card_number", w)])
  let p4 : Dict ← (match dget full "rarity" with
    | none => .ok []
    | some v => do let w ← pyFieldOptStr v 0 50; .ok [("rarity", w)])
  let p5 : Dict ← (match dget full "quantity" with
    | none => .ok []
    | some v => (match v with
      | .vNull => .ok [("quantity", Value.vNull)]
      | _ => do let n ← pyFieldIntGe1 v; .ok [("quantity", Value.vInt n)]))
  let p6 : Dict ← (match dget full "is_favorite" with
    | none => .ok []
    | some v => (match v with
      | .vNull => .ok [("is_favorite", Value.vNull)]
      | _ => do let b ← pyFieldBool v; .ok [("is_favorite", Value.vBool b)]))
  .ok (p1 ++ p2 ++ p3 ++ p4 ++ p5 ++ p6)

/-! ### Pure card operations (`services/card_operations.py`) -/

/-- `create_card_data` (card_operations.py lines 70-128): validate every
field, assemble the card dict including `date_added` (stamped with the
current time, passed here as `now`) and `user_id`, then validate through
`CardCreate` — whose `model_dump()` drops the undeclared `date_added` and
`user_id` keys. -/
def create_card_data (name set_name : String) (card_number rarity : Value)
    (quantity : Value) (is_favorite : Bool) (user_id : Value) (now : String) :
    Except String Dict := do
  let validated_name ← validate_card_name name
  let validated_set ← validate_card_set set_name
  let validated_quantity ← validate_card_quantity quantity
  let validated_number ← validate_card_number card_number
  let validated_rarity ← validate_card_rarity rarity
  let card_data : Dict :=
    [("name", .vStr validated_name), ("set_name", .vStr validated_set),
     ("card_number", validated_number), ("rarity", validated_rarity),
     ("quantity", validated_quantity), ("is_favorite", .vBool is_favorite),
     ("date_added", .vStr now), ("user_id", user_id)]
  match cardCreateDump card_data with
  | .ok validated_data => .ok validated_data
  | .error e => .error ("Invalid card data: " ++ e)

/-- Validate one field of an update dict in place when present
(the `if key in update_data` blocks of `update_card_data`). -/
def vfield (d : Dict) (k : String) (f : Value → Except String Value) :
    Except String Dict :=
  match dget d k with
  | none => .ok d
  | some v => do
    let w ← f v
    .ok (dset d k w)

/-- Apply `validate_card_name` to a dynamic value (`.strip()` on a
non-string raises). -/
def vnameField (v : Value) : Except String Value :=
  match v with
  | .vStr s => (validate_card_name s).map .vStr
  | _ => .error "AttributeError: strip"

/-- Apply `validate_card_set` to a dynamic value. -/
def vsetField (v : Value) : Except String Value :=
  match v with
  | .vStr s => (validate_card_set s).map .vStr
  | _ => .error "AttributeError: strip"

/-- `update_card_data` (card_operations.py lines 130-183): keep only the
non-None updates, validate the updated fields, merge over the existing
record, and re-validate through `CardUpdate` with `exclude_unset`. -/
def update_card_data (existing : Dict) (updates : Dict) : Except String Dict :=
  let update_data := updates.filter fun kv => kv.2 ≠ Value.vNull
  if update_data.isEmpty then .ok existing
  else do
    let u1 ← vfield update_data "name" vnameField
    let u2 ← vfield u1 "set_name" vsetField
    let u3 ← vfield u2 "quantity" validate_card_quantity
    let u4 ← vfield u3 "card_number" validate_card_number
    let u5 ← vfield u4 "rarity" validate_card_rarity
    let full := dmerge existing u5
    match cardUpdateDumpExcludeUnset full with
    | .ok validated => .ok validated
    | .error e => .error ("Invalid update data: " ++ e)

/-- Collection statistics as returned by `calculate_collection_stats`
(the repository `get_stats` omits `unique_sets`). -/
structure StatsC where
  total_cards : Nat
  total_quantity : Int
  favorites : Nat
  most_common_set : String
  unique_sets : Nat
deriving DecidableEq

/-- Numeric reading of a value for SQL `SUM` and Python addition. -/
def intOf : Value → Int
  | .vInt n => n
  | .vBool b => if b then 1 else 0
  | _ => 0

/-- String reading of a set-name value (`set_name` is TEXT NOT NULL, so
service-created rows always hold a string here). -/
def strOf : Value → String
  | .vStr s => s
  | _ => "None"

/-- One step of counting: `set_counts[k] = set_counts.get(k, 0) + 1`,
keeping Python dict insertion order (first occurrence first). -/
def bump : List (Value × Nat) → Value → List (Value × Nat)
  | [], k => [(k, 1)]
  | (a, n) :: t, k => if a = k then (a, n + 1) :: t else (a, n) :: bump t k

/-- Python `max(items, key=lambda x: x[1])`: the first item with maximal
second component; `none` on the empty list (where Python raises). -/
def pickMax : List (Value × Nat) → Option (Value × Nat)
  | [] => none
  | h :: t => some (t.foldl (fun best p => if best.2 < p.2 then p else best) h)

/-- `calculate_collection_stats` (card_operations.py lines 194-232). -/
def calculate_collection_stats (cards : List Dict) : StatsC :=
  if cards.isEmpty then ⟨0, 0, 0, "None", 0⟩
  else
    let total_cards := cards.length
    let total_quantity :=
      cards.foldl (fun a d => a + intOf (dgetD d "quantity" (.vInt 1))) 0
    let favorites :=
      (cards.filter fun d => pyTruthy (dgetD d "is_favorite" .vNull)).length
    let set_counts :=
      cards.foldl (fun acc d => bump acc (dgetD d "set_name" (.vStr "Unknown"))) []
    let most_common_set :=
      match pickMax set_counts with
      | none => "None"
      | some p => strOf p.1
    ⟨total_cards, total_quantity, favorites, most_common_set, set_counts.length⟩

/-! ### The local SQLite repository (`repositories/card_repository.py`,
`database/schema.py`)

The `cards` table has columns `id INTEGER PRIMARY KEY AUTOINCREMENT`,
`name TEXT NOT NULL`, `set_name TEXT NOT NULL DEFAULT 'Unknown'`,
`card_number TEXT`, `rarity TEXT`, `quantity INTEGER DEFAULT 1`,
`is_favorite INTEGER DEFAULT 0`, `date_added TEXT NOT NULL`. -/

/-- One stored row of the `cards` table. -/
structure Row where
  id : Nat
  name : Value
  set_name : Value
  card_number : Value
  rarity : Value
  quantity : Value
  is_favorite : Value
  date_added : Value
deriving DecidableEq

/-- The local database: stored rows plus the next AUTOINCREMENT id. -/
structure LocalDB where
  rows : List Row
  nextId : Nat
deriving DecidableEq

/-- A freshly created database (AUTOINCREMENT starts at 1). -/
def emptyLocalDB : LocalDB := ⟨[], 1⟩

/-- Python `sqlite3` adapts booleans to the integers 0/1 on insertion. -/
def sqliteAdapt : Value → Value
  | .vBool b => .vInt (if b then 1 else 0)
  | v => v

/-- The column names of the `cards` table. -/
def cardsColumns : List String :=
  ["id", "name", "set_name", "card_number", "rarity", "quantity",
   "is_favorite", "date_added"]

/-- `CardRepository.create` (card_repository.py lines 17-36): INSERT the
given keys; omitted columns take their schema defaults; a missing or NULL
value in a NOT-NULL column without a default is an integrity error. -/
def localCreate (data : Dict) (db : LocalDB) : Except String (Nat × LocalDB) :=
  if data.any (fun kv => !(cardsColumns.contains kv.1)) then
    .error "no such column"
  else if dgetD data "name" .vNull = .vNull then
    .error "NOT NULL constraint failed: cards.name"
  else if dgetD data "date_added" .vNull = .vNull then
    .error "NOT NULL constraint failed: cards.date_added"
  else
    let row : Row :=
      { id := db.nextId,
        name := sqliteAdapt (dgetD data "name" .vNull),
        set_name := sqliteAdapt (dgetD data "set_name" (.vStr "Unknown")),
        card_number := sqliteAdapt (dgetD data "card_number" .vNull),
        rarity := sqliteAdapt (dgetD data "rarity" .vNull),
        quantity := sqliteAdapt (dgetD data "quantity" (.vInt 1)),
        is_favorite := sqliteAdapt (dgetD data "is_favorite" (.vInt 0)),
        date_added := sqliteAdapt (dgetD data "date_added" .vNull) }
    .ok (db.nextId, ⟨db.rows ++ [row], db.nextId + 1⟩)

/-- `CardRepository.find_by_id` (lines 38-48): point lookup. -/
def localFindById (db : LocalDB) (card_id : Nat) : Option Row :=
  db.rows.find? fun r => r.id == card_id

/-- `dict(row)` on a fetched sqlite row: all columns in schema order. -/
def rowToDict (r : Row) : Dict :=
  [("id", .vInt (r.id : Int)), ("name", r.name), ("set_name", r.set_name),
   ("card_number", r.card_number), ("rarity", r.rarity),
   ("quantity", r.quantity), ("is_favorite", r.is_favorite),
   ("date_added", r.date_added)]

/-- The text content a row's name contributes to `LIKE` and `ORDER BY`
(`name` is TEXT NOT NULL; service-created rows always hold a string). -/
def nameChars (r : Row) : List Char :=
  match r.name with
  | .vStr s => s.data
  | _ => []

/-- Byte-order (BINARY collation) comparison of two character lists, the
order used by SQLite `ORDER BY name` on text. -/
def clLe : List Char → List Char → Bool
  | [], _ => true
  | _ :: _, [] => false
  | a :: as, b :: bs =>
    if a.toNat < b.toNat then true
    else if b.toNat < a.toNat then false
    else clLe as bs

/-- `ORDER BY name` ascending as a relation on rows. -/
def rowNameLe (a b : Row) : Prop := clLe (nameChars a) (nameChars b) = true

instance : DecidableRel rowNameLe := fun a b => by
  unfold rowNameLe; infer_instance

/-- `CardRepository.find_by_name` (lines 60-71):
`SELECT * WHERE name LIKE ?%term%? ORDER BY name`. -/
def localFindByName (db : LocalDB) (term : String) : List Row :=
  List.insertionSort rowNameLe
    (db.rows.filter fun r => likeM (likePat term) (nameChars r))

/-- Set a single column of a row from an UPDATE assignment. -/
def setCol (r : Row) (k : String) (v : Value) : Row :=
  if k = "name" then { r with name := v }
  else if k = "set_name" then { r with set_name := v }
  else if k = "card_number" then { r with card_number := v }
  else if k = "rarity" then { r with rarity := v }
  else if k = "quantity" then { r with quantity := v }
  else if k = "is_favorite" then { r with is_favorite := v }
  else if k = "date_added" then { r with date_added := v }
  else r

/-- Apply every SET assignment of an UPDATE statement to a row. -/
def applyRow (r : Row) (data : Dict) : Row :=
  data.foldl (fun r kv => setCol r kv.1 (sqliteAdapt kv.2)) r

/-- `CardRepository.update` (lines 85-109): returns false on an empty
field list, otherwise runs `UPDATE ... SET ... WHERE id = ?` and reports
whether any row matched. -/
def localUpdate (db : LocalDB) (card_id : Nat) (data : Dict) :
    Except String (Bool × LocalDB) :=
  if data.isEmpty then .ok (false, db)
  else if data.any (fun kv => !(cardsColumns.contains kv.1)) then
    .error "no such column"
  else
    .ok (db.rows.any (fun r => r.id == card_id),
      ⟨db.rows.map fun r => if r.id == card_id then applyRow r data else r,
       db.nextId⟩)

/-- Collection statistics as returned by `CardRepository.get_stats`. -/
structure StatsL where
  total_cards : Nat
  total_quantity : Int
  favorites : Nat
  most_common_set : String
deriving DecidableEq

/-- `CardRepository.get_stats` (lines 122-154): COUNT, SUM (with NULL
summing to 0), favorite count, and the GROUP BY set with the highest
count (LIMIT 1). -/
def localGetStats (db : LocalDB) : StatsL :=
  let total_cards := db.rows.length
  let total_quantity := db.rows.foldl (fun a r => a + intOf r.quantity) 0
  let favorites := (db.rows.filter fun r => r.is_favorite == Value.vInt 1).length
  let groups := db.rows.foldl (fun acc r => bump acc r.set_name) []
  let most_common_set :=
    match pickMax groups with
    | none => "None"
    | some p => strOf p.1
  ⟨total_cards, total_quantity, favorites, most_common_set⟩

/-! ### The shared service layer (`services/shared_card_service.py`) -/

/-- `SharedCardService.add_card` (lines 46-88) against the local backend:
build validated card data via `create_card_data` — with the owner taken
from the service's user context unless in admin mode — then insert.
Additional `kwargs` are not modelled. -/
def sharedAddCard (user_id : Value) (admin : Bool) (name set_name : String)
    (card_number rarity : Value) (quantity : Value) (is_favorite : Bool)
    (now : String) (db : LocalDB) : Except String (Nat × LocalDB) := do
  let card_data ← create_card_data name set_name card_number rarity quantity
    is_favorite (if admin then .vNull else user_id) now
  localCreate card_data db

/-- `SharedCardService.update_card` (lines 110-149) against the local
backend: return false when the id is unknown or every provided value is
None; otherwise validate, merge and write. -/
def sharedUpdateCard (db : LocalDB) (card_id : Nat) (kwargs : Dict) :
    Except String (Bool × LocalDB) :=
  match localFindById db card_id with
  | none => .ok (false, db)
  | some existing_card =>
    let update_data := kwargs.filter fun kv => kv.2 ≠ Value.vNull
    if update_data.isEmpty then .ok (false, db)
    else do
      let validated_data ← update_card_data (rowToDict existing_card) update_data
      localUpdate db card_id validated_data

/-- `SharedCardService.delete_all_cards` (lines 185-188) against the local
backend: the call `self.repository.delete_all()` fails because the class
`CardRepository` does not define `delete_all` (card_repository.py defines
only create/find/update/delete/get_stats), so Python raises. -/
def sharedDeleteAllCardsLocal (_db : LocalDB) : Except String (Int × LocalDB) :=
  .error "AttributeError: CardRepository object has no attribute delete_all"

/-! ### The Pokemon TCG API integration (`services/pokemon_api_service.py`,
`services/card_service.py`) -/

/-- The external card-lookup collaborator: whether its health check
succeeds, and the body of `_make_request` for a name query — `none` for a
failed request, otherwise the list of matching cards (only emptiness
matters to validation). -/
structure PokemonApi where
  available : Bool
  response : String → Option (List String)

/-- `PokemonAPIService.validate_card_name` (pokemon_api_service.py lines
66-112). The quotation marks Python puts around the name in the
not-a-valid-card message are elided here. -/
def apiValidateCardName (api : PokemonApi) (card_name : String) :
    Bool × Option String :=
  if card_name = "" || pyStrip card_name = "" then
    (false, some "Card name cannot be empty")
  else
    let clean_name := pyStrip card_name
    match api.response clean_name with
    | none =>
      (false, some "Unable to validate card name. Pokemon TCG API is not responding. Please try again later.")
    | some [] =>
      (false, some (clean_name ++ " is not a valid Pokemon card. Please check the name and try again."))
    | some (_ :: _) => (true, none)

/-- `CardService.validate_pokemon_card` (card_service.py lines 18-54):
allow when the API is unavailable, allow when the failure message signals
an unresponsive API, and otherwise relay the verdict. -/
def validatePokemonCard (api : PokemonApi) (name : String) :
    Bool × Option String :=
  if !api.available then (true, none)
  else
    match apiValidateCardName api name with
    | (true, _) => (true, none)
    | (false, some msg) =>
      if lowerContains "not responding" msg then (true, none)
      else (false, some msg)
    | (false, none) => (false, none)

/-- `CardService.add_card` (card_service.py lines 56-88) against the local
backend. Pokemon validation is disabled in the source (lines 60-63 only
log when `validate_pokemon` is set), so neither `api` nor the flag
influences the outcome; the card dict (including `date_added`) is
validated through `CardCreate` and inserted. -/
def cardServiceAddCard (api : PokemonApi) (validate_pokemon : Bool)
    (name set_name : String) (card_number rarity : Value) (quantity : Value)
    (is_favorite : Bool) (now : String) (db : LocalDB) :
    Except String (Nat × LocalDB) :=
  let _ := api
  let _ := validate_pokemon
  let card_data : Dict :=
    [("name", .vStr (pyStrip name)),
     ("set_name", .vStr (if set_name = "" then "Unknown" else pyStrip set_name)),
     ("card_number", card_number), ("rarity", rarity),
     ("quantity", quantity), ("is_favorite", .vBool is_favorite),
     ("date_added", .vStr now)]
  match cardCreateDump card_data with
  | .error e => .error ("Invalid card data: " ++ e)
  | .ok validated_data => localCreate validated_data db

/-! ### The Supabase REST repository
(`repositories/supabase_card_repository.py`) -/

/-- A row of the hosted `cards` table (the fields relevant here). -/
structure SRow where
  id : String
  name : String
  set_name : String
  quantity : Int
  is_favorite : Bool
  user_id : Value
deriving DecidableEq

/-- The hosted table, rows in storage order. -/
structure SupaDB where
  rows : List SRow
deriving DecidableEq

/-- `SupabaseCardRepository.find_by_name` (lines 164-175): GET with
`name=ilike.*{name}*` and no `order` parameter, so rows come back in the
backend's storage order, unsorted. PostgREST rewrites every `*` in the
query value — the two delimiters and any `*` inside the term — to the
`%` wildcard, so the effective pattern is `'%' :: name.data.map pgStar
++ ['%']`; `%` and `_` inside the term stay wildcards as well. -/
def supabaseFindByName (db : SupaDB) (name : String) : List SRow :=
  db.rows.filter fun r => likeM ('%' :: name.data.map pgStar ++ ['%']) r.name.data

/-- `SupabaseCardRepository.delete_all` (lines 133-162): count all rows,
return 0 on an empty table, otherwise delete every row matching
`id=not.is.null` and return the prior count. -/
def supabaseDeleteAll (db : SupaDB) : Int × SupaDB :=
  let total_cards := db.rows.length
  if total_cards = 0 then (0, db)
  else ((total_cards : Int), ⟨[]⟩)

/-! ### Configuration and the repository factory (`config.py`,
`repositories/repository_factory.py`) -/

/-- The configuration state relevant to backend selection: the two
environment variables, `none` when unset. -/
structure Config where
  SUPABASE_URL : Option String
  SUPABASE_KEY : Option String
deriving DecidableEq

/-- Python truthiness of an optional environment string. -/
def truthyOpt : Option String → Bool
  | some s => s != ""
  | none => false

/-- `Config.USE_SUPABASE` (config.py line 33):
`bool(os.getenv('SUPABASE_URL') and os.getenv('SUPABASE_KEY'))`. -/
def Config.USE_SUPABASE (c : Config) : Bool :=
  truthyOpt c.SUPABASE_URL && truthyOpt c.SUPABASE_KEY

/-- `Config.validate_supabase_config` (config.py lines 53-69): URL and key
must be set and the URL must start with `https://` and contain
`.supabase.co`. -/
def Config.validate_supabase_config (c : Config) : Bool :=
  match c.SUPABASE_URL with
  | none => false
  | some url =>
    if url = "" then false
    else match c.SUPABASE_KEY with
      | none => false
      | some key =>
        if key = "" then false
        else prefixFold "https://".data url.data && subPlain ".supabase.co".data url.data

/-- Which repository class the factory instantiates. -/
inductive RepoChoice where
  | sqliteRepo
  | supabaseRepo
deriving DecidableEq

/-- `get_card_repository` (repository_factory.py lines 5-15): when
`USE_SUPABASE`, an invalid configuration raises `ValueError`, otherwise
the Supabase repository is built; when not, the local repository is
returned without any check. -/
def get_card_repository (c : Config) : Except String RepoChoice :=
  if c.USE_SUPABASE then
    if !c.validate_supabase_config then .error "Supabase configuration is invalid"
    else .ok .supabaseRepo
  else .ok .sqliteRepo

/-! ### The CLI quantity parsing (`cli/user_commands.py`) -/

/-- Decimal digit-string value, `none` if empty or non-digit. -/
def digitsVal (l : List Char) : Option Nat :=
  if l.isEmpty then none
  else l.foldl (fun acc c =>
    match acc with
    | none => none
    | some n => if c.isDigit then some (n * 10 + (c.toNat - 48)) else none)
    (some 0)

/-- The CLI layer's own quantity parsing (user_commands.py line 52):
`quantity = int(args[i + 1])` — plain `int()` conversion, with no range
check of its own. -/
def cliParseQuantity (s : String) : Except String Int :=
  match trimChars s.data with
  | '-' :: ds =>
    (match digitsVal ds with
     | some n => .ok (-(n : Int))
     | none => .error "ValueError: invalid literal for int")
  | '+' :: ds =>
    (match digitsVal ds with
     | some n => .ok (n : Int)
     | none => .error "ValueError: invalid literal for int")
  | ds =>
    (match digitsVal ds with
     | some n => .ok (n : Int)
     | none => .error "ValueError: invalid literal for int")

/-! ### Auxiliary notions used only in theorem statements -/

/-- The count recorded for a key in a counting list, 0 when absent. -/
def lookCount : List (Value × Nat) → Value → Nat
  | [], _ => 0
  | (a, n) :: t, k => if a = k then n else lookCount t k

/-- A stored row is statistics-well-formed when its `set_name` holds a
string and its `quantity` an integer, as every service-created row does
(the schema declares them TEXT NOT NULL and INTEGER). -/
def wfStatsRow (r : Row) : Bool :=
  (match r.set_name with | .vStr _ => true | _ => false) &&
  (match r.quantity with | .vInt _ => true | _ => false)

/-- A card dict is statistics-well-formed when `set_name`, if present,
holds a string and `quantity`, if present, an integer. -/
def wfCardDict (d : Dict) : Bool :=
  (match dget d "set_name" with
    | some (.vStr _) => true | none => true | _ => false) &&
  (match dget d "quantity" with
    | some (.vInt _) => true | none => true | _ => false)

/-- A stored row is update-well-formed when its fields have the shapes a
service-created row always has: a name string of 1..100 characters, a set
string of at most 100, optional strings within 20/50 characters for
number and rarity, and 0/1 for the favorite flag. -/
def wfRow (r : Row) : Bool :=
  (match r.name with
    | .vStr s => 1 ≤ pyLen s && pyLen s ≤ 100 | _ => false) &&
  (match r.set_name with
    | .vStr s => pyLen s ≤ 100 | _ => false) &&
  (match r.card_number with
    | .vNull => true | .vStr s => pyLen s ≤ 20 | _ => false) &&
  (match r.rarity with
    | .vNull => true | .vStr s => pyLen s ≤ 50 | _ => false) &&
  (r.is_favorite = Value.vInt 0 || r.is_favorite = Value.vInt 1)

/-! ### Concrete sample data used by witnesses and counterexamples -/

/-- A healthy external lookup service whose search finds no matching card:
the health check succeeds and every query returns an empty result list. -/
def apiHealthyNotFound : PokemonApi := ⟨true, fun _ => some []⟩

/-- A well-formed stored row, as the service would create it. -/
def wrow1 : Row :=
  ⟨1, .vStr "Pikachu", .vStr "Base Set", .vNull, .vNull, .vInt 2, .vInt 0,
   .vStr "2024-01-01T00:00:00"⟩

/-- A one-row local database containing `wrow1`. -/
def wdb1 : LocalDB := ⟨[wrow1], 2⟩

/-- A hosted table holding two matching rows out of name order. -/
def sdb1 : SupaDB :=
  ⟨[⟨"u1", "Bulbasaur", "Base Set", 1, false, .vNull⟩,
    ⟨"u2", "Abra", "Base Set", 1, false, .vNull⟩]⟩

/-- Decidable equality for `Except`, used to evaluate repository results
on concrete inputs. -/
instance {ε α : Type} [DecidableEq ε] [DecidableEq α] :
    DecidableEq (Except ε α) := fun a b =>
  match a, b with
  | .ok x, .ok y =>
    if h : x = y then isTrue (by rw [h]) else isFalse (by simp [h])
  | .ok _, .error _ => isFalse (by simp)
  | .error _, .ok _ => isFalse (by simp)
  | .error e, .error f =>
    if h : e = f then isTrue (by rw [h]) else isFalse (by simp [h])

/-! ## Theorems -/

/-- C9: `validate_set` returns Unknown exactly on the empty input,
otherwise the trimmed value, failing exactly when the trimmed value
exceeds 100 characters; every accepted result is at most 100 characters
long. -/
theorem validate_card_set_spec (s : String) :
    (s = "" → validate_card_set s = .ok "Unknown") ∧
    (s ≠ "" → validate_card_set s =
      (if 100 < pyLen (pyStrip s) then
        .error "Set name cannot exceed 100 characters"
      else .ok (pyStrip s))) ∧
    (∀ r, validate_card_set s = .ok r → pyLen r ≤ 100) := by
  unfold validate_card_set
  refine ⟨fun h => by simp [h], fun h => by simp [h], fun r hr => ?_⟩
  by_cases h : s = ""
  · simp [h] at hr
    rw [← hr]
    decide
  · simp [h] at hr
    by_cases hl : 100 < pyLen (pyStrip s)
    · simp [hl] at hr
    · simp [hl] at hr
      rw [← hr]
      omega

/-- C9 witness: the empty set name defaults to Unknown, and a padded one
is returned trimmed. -/
theorem validate_card_set_spec_witness :
    validate_card_set "" = .ok "Unknown" ∧
    validate_card_set "  Base Set  " = .ok (pyStrip "  Base Set  ") := by
  refine ⟨(validate_card_set_spec "").1 rfl, ?_⟩
  rw [(validate_card_set_spec "  Base Set  ").2.1 (by decide)]
  decide

/-- C4 counterexample: the claim says the core validator accepts every
integer of at least 1, but `validate_card_quantity` rejects 1000. -/
theorem validate_card_quantity_rejects_1000 :
    validate_card_quantity (.vInt 1000) = .error "Quantity cannot exceed 999" :=
  rfl

/-- C4 (amended): the core quantity validator succeeds exactly on the
integers 1..999 (with Python True passing as the integer 1), so the 999
cap lives in the core validator; the CLI's own parsing, plain `int()`,
applies no cap of its own and accepts 5000. -/
theorem validate_card_quantity_spec :
    (∀ q, (validate_card_quantity q).isOk = true ↔
      ((∃ n : Int, q = .vInt n ∧ 1 ≤ n ∧ n ≤ 999) ∨ q = .vBool true)) ∧
    cliParseQuantity "5000" = .ok 5000 := by
  constructor
  · intro q
    cases q with
    | vStr s => simp [validate_card_quantity, Except.isOk, Except.toBool]
    | vNull => simp [validate_card_quantity, Except.isOk, Except.toBool]
    | vBool b =>
      cases b <;> simp [validate_card_quantity, Except.isOk, Except.toBool]
    | vInt n =>
      simp only [validate_card_quantity]
      by_cases h1 : n < 1
      · simp only [h1, if_true, Except.isOk, Except.toBool]
        simp
        omega
      · by_cases h2 : 999 < n
        · simp only [h1, h2, if_false, if_true, Except.isOk, Except.toBool]
          simp [h1]
          omega
        · simp only [h1, h2, if_false, Except.isOk, Except.toBool]
          simp [h1, h2]
          omega
  · decide

/-- C2 counterexample: with the remote endpoint configured but the
credential missing, the factory silently returns the local repository
instead of raising a configuration error. -/
theorem get_card_repository_counterexample :
    get_card_repository ⟨some "https://proj.supabase.co", none⟩ =
      .ok .sqliteRepo := rfl

/-- C2 (amended): remote storage is selected only when both the endpoint
URL and the credential are configured non-empty (`USE_SUPABASE`); in that
case an invalid configuration (such as a URL failing the shape check)
raises a configuration error, and the local repository is never returned. -/
theorem get_card_repository_spec (c : Config) (h : c.USE_SUPABASE = true) :
    (c.validate_supabase_config = false →
      get_card_repository c = .error "Supabase configuration is invalid") ∧
    get_card_repository c ≠ .ok .sqliteRepo := by
  constructor
  · intro hv
    simp [get_card_repository, h, hv]
  · simp only [get_card_repository, h, if_true]
    by_cases hv : c.validate_supabase_config <;> simp [hv]

/-- C2 witness: a configuration with both variables set but an invalid
URL shape is selected as remote and rejected with the configuration
error. -/
theorem get_card_repository_spec_witness :
    Config.USE_SUPABASE ⟨some "http://proj.supabase.co", some "key"⟩ = true ∧
    get_card_repository ⟨some "http://proj.supabase.co", some "key"⟩ =
      .error "Supabase configuration is invalid" :=
  ⟨by decide, (get_card_repository_spec _ (by decide)).1 (by decide)⟩

/-- C1 (code bug): `create_card_data` stamps `date_added` and attaches
`user_id` into the card dict, but the `CardCreate` validation silently
drops both undeclared keys, so the validated record carries no owner and
no timestamp — and the local INSERT then fails its NOT NULL constraint on
`date_added`, so `add_card` cannot succeed at all on the local backend. -/
theorem create_card_data_drops_owner_and_date :
    create_card_data "Charizard" "Base Set" .vNull .vNull (.vInt 1) false
        (.vStr "alice") "2024-01-01T00:00:00" =
      .ok [("name", .vStr "Charizard"), ("set_name", .vStr "Base Set"),
           ("card_number", .vNull), ("rarity", .vNull),
           ("quantity", .vInt 1), ("is_favorite", .vBool false)] ∧
    dget [("name", .vStr "Charizard"), ("set_name", .vStr "Base Set"),
           ("card_number", .vNull), ("rarity", .vNull),
           ("quantity", .vInt 1), ("is_favorite", .vBool false)]
      "date_added" = none ∧
    dget [("name", .vStr "Charizard"), ("set_name", .vStr "Base Set"),
           ("card_number", .vNull), ("rarity", .vNull),
           ("quantity", .vInt 1), ("is_favorite", .vBool false)]
      "user_id" = none ∧
    sharedAddCard (.vStr "alice") false "Charizard" "Base Set" .vNull .vNull
        (.vInt 1) false "2024-01-01T00:00:00" emptyLocalDB =
      .error "NOT NULL constraint failed: cards.date_added" := by
  refine ⟨by decide, by decide, by decide, by decide⟩

/-- C3 (code bug): the external lookup reports Fakemon as not a valid
card while healthy, yet `add_card` behaves identically for every external
service state and flag value — Pokemon validation is disabled in
`CardService.add_card`, so a genuine not-found never blocks creation. -/
theorem cardServiceAddCard_ignores_pokemon_api :
    (validatePokemonCard apiHealthyNotFound "Fakemon").1 = false ∧
    ∀ (api : PokemonApi) (vp : Bool) (db : LocalDB),
      cardServiceAddCard api vp "Fakemon" "Base Set" .vNull .vNull (.vInt 1)
          false "2024-01-01T00:00:00" db =
        cardServiceAddCard apiHealthyNotFound true "Fakemon" "Base Set"
          .vNull .vNull (.vInt 1) false "2024-01-01T00:00:00" db :=
  ⟨by decide, fun _ _ _ => rfl⟩

/-- C6 (code bug): on the local backend the service's delete-all
operation fails — `CardRepository` defines no `delete_all` — while the
Supabase implementation does remove every row and return the prior
count. -/
theorem delete_all_cards_spec :
    (∀ db : LocalDB, sharedDeleteAllCardsLocal db =
      .error "AttributeError: CardRepository object has no attribute delete_all") ∧
    (∀ sdb : SupaDB, (supabaseDeleteAll sdb).1 = (sdb.rows.length : Int) ∧
      (supabaseDeleteAll sdb).2.rows = []) := by
  refine ⟨fun _ => rfl, fun sdb => ?_⟩
  unfold supabaseDeleteAll
  by_cases h : sdb.rows.length = 0
  · rw [List.length_eq_zero] at h
    simp [h]
  · simp [h]

/-- C10: an update whose provided fields are all None (or absent) on an
existing card returns false and leaves the database untouched. -/
theorem update_card_all_none_is_noop (db : LocalDB) (card_id : Nat)
    (row : Row) (updates : Dict)
    (hfind : localFindById db card_id = some row)
    (hnull : ∀ kv ∈ updates, kv.2 = Value.vNull) :
    sharedUpdateCard db card_id updates = .ok (false, db) := by
  unfold sharedUpdateCard
  rw [hfind]
  have hf : updates.filter (fun kv => kv.2 ≠ Value.vNull) = [] := by
    rw [List.filter_eq_nil_iff]
    intro kv hkv
    simpa using hnull kv hkv
  simp [hf]
  intro x v hmem hne
  exact absurd (hnull _ hmem) hne

/-- C10 witness: on a concrete one-row database, an update providing only
None values returns false and changes nothing. -/
theorem update_card_all_none_is_noop_witness :
    sharedUpdateCard wdb1 1 [("quantity", Value.vNull), ("name", Value.vNull)] =
      .ok (false, wdb1) :=
  update_card_all_none_is_noop wdb1 1 wrow1 _ (by decide) (by decide)

/-! ### Counting lemmas for the statistics operations -/

theorem bump_ne_nil (l : List (Value × Nat)) (k : Value) : bump l k ≠ [] := by
  cases l with
  | nil => simp [bump]
  | cons h t =>
    obtain ⟨a, n⟩ := h
    simp only [bump]
    split <;> simp

theorem lookCount_bump_self (l : List (Value × Nat)) (k : Value) :
    lookCount (bump l k) k = lookCount l k + 1 := by
  induction l with
  | nil => simp [bump, lookCount]
  | cons h t ih =>
    obtain ⟨a, n⟩ := h
    by_cases hak : a = k
    · simp [bump, lookCount, hak]
    · simp [bump, lookCount, hak, ih]

theorem lookCount_bump_ne (l : List (Value × Nat)) (k k' : Value)
    (h : k' ≠ k) : lookCount (bump l k) k' = lookCount l k' := by
  have h' : ¬ k = k' := fun hh => h hh.symm
  induction l with
  | nil => simp [bump, lookCount, h']
  | cons q t ih =>
    obtain ⟨a, n⟩ := q
    by_cases hak : a = k
    · subst hak
      simp [bump, lookCount, h']
    · simp only [bump, hak, if_false]
      by_cases hak' : a = k'
      · simp [lookCount, hak']
      · simp [lookCount, hak', ih]

theorem mem_bump {p : Value × Nat} {l : List (Value × Nat)} {k : Value}
    (h : p ∈ bump l k) : p.1 = k ∨ p ∈ l := by
  induction l with
  | nil =>
    simp [bump] at h
    exact Or.inl (by rw [h])
  | cons q t ih =>
    obtain ⟨a, n⟩ := q
    by_cases hak : a = k
    · subst hak
      have hb : bump ((a, n) :: t) a = (a, n + 1) :: t := by simp [bump]
      rw [hb, List.mem_cons] at h
      rcases h with rfl | h
      · exact Or.inl rfl
      · exact Or.inr (List.mem_cons_of_mem _ h)
    · simp only [bump, hak, if_false, List.mem_cons] at h
      rcases h with rfl | h
      · exact Or.inr (List.mem_cons_self _ _)
      · rcases ih h with h1 | h1
        · exact Or.inl h1
        · exact Or.inr (List.mem_cons_of_mem _ h1)

theorem hasKey_bump_self (l : List (Value × Nat)) (k : Value) :
    ∃ p ∈ bump l k, p.1 = k := by
  induction l with
  | nil => exact ⟨(k, 1), by simp [bump], rfl⟩
  | cons q t ih =>
    obtain ⟨a, n⟩ := q
    by_cases hak : a = k
    · exact ⟨(a, n + 1), by simp [bump, hak], hak⟩
    · obtain ⟨p, hp, hpk⟩ := ih
      exact ⟨p, by simp [bump, hak, hp], hpk⟩

theorem hasKey_bump_mono {l : List (Value × Nat)} {k' : Value} (k : Value)
    (h : ∃ p ∈ l, p.1 = k') : ∃ p ∈ bump l k, p.1 = k' := by
  induction l with
  | nil => simp at h
  | cons q t ih =>
    obtain ⟨a, n⟩ := q
    obtain ⟨p, hp, hpk⟩ := h
    by_cases hak : a = k
    · rcases List.mem_cons.mp hp with h1 | h1
      · exact ⟨(a, n + 1), by simp [bump, hak], by rw [h1] at hpk; exact hpk⟩
      · exact ⟨p, by simp [bump, hak, h1], hpk⟩
    · rcases List.mem_cons.mp hp with h1 | h1
      · exact ⟨(a, n), by simp [bump, hak], by rw [h1] at hpk; exact hpk⟩
      · obtain ⟨p', hp', hpk'⟩ := ih ⟨p, h1, hpk⟩
        exact ⟨p', by simp [bump, hak, hp'], hpk'⟩

/-- Distinct keys in a counting list. -/
def KD (l : List (Value × Nat)) : Prop := (l.map Prod.fst).Nodup

theorem KD_bump {l : List (Value × Nat)} (k : Value) (h : KD l) :
    KD (bump l k) := by
  induction l with
  | nil => simp [bump, KD]
  | cons q t ih =>
    obtain ⟨a, n⟩ := q
    rw [KD, List.map_cons, List.nodup_cons] at h
    obtain ⟨ha, ht⟩ := h
    by_cases hak : a = k
    · subst hak
      have hb : bump ((a, n) :: t) a = (a, n + 1) :: t := by simp [bump]
      rw [KD, hb, List.map_cons, List.nodup_cons]
      exact ⟨ha, ht⟩
    · rw [KD]
      simp only [bump, hak, if_false]
      rw [List.map_cons, List.nodup_cons]
      refine ⟨?_, ih ht⟩
      intro hmem
      obtain ⟨p, hp, hpa⟩ := List.mem_map.mp hmem
      rcases mem_bump hp with h1 | h1
      · exact hak (hpa.symm.trans h1)
      · exact ha (List.mem_map.mpr ⟨p, h1, hpa⟩)

theorem KD_lookup {l : List (Value × Nat)} (h : KD l) {p : Value × Nat}
    (hp : p ∈ l) : lookCount l p.1 = p.2 := by
  induction l with
  | nil => simp at hp
  | cons q t ih =>
    obtain ⟨a, n⟩ := q
    rw [KD, List.map_cons, List.nodup_cons] at h
    obtain ⟨ha, ht⟩ := h
    rcases List.mem_cons.mp hp with h1 | h1
    · rw [h1]
      simp [lookCount]
    · have hne : a ≠ p.1 := by
        intro hh
        exact ha (List.mem_map.mpr ⟨p, h1, hh.symm⟩)
      simp only [lookCount, hne, if_false]
      exact ih ht h1

theorem foldl_bump_lookCount {α : Type} (key : α → Value) (rows : List α)
    (acc : List (Value × Nat)) (k : Value) :
    lookCount (rows.foldl (fun a r => bump a (key r)) acc) k =
      lookCount acc k + (rows.filter fun r => key r = k).length := by
  induction rows generalizing acc with
  | nil => simp
  | cons r t ih =>
    rw [List.foldl_cons, ih]
    by_cases hk : key r = k
    · rw [hk, lookCount_bump_self]
      simp [hk]
      omega
    · rw [lookCount_bump_ne acc (key r) k fun hh => hk hh.symm]
      simp [hk]

theorem foldl_bump_mem {α : Type} (key : α → Value) (rows : List α)
    (acc : List (Value × Nat)) {p : Value × Nat}
    (hp : p ∈ rows.foldl (fun a r => bump a (key r)) acc) :
    p ∈ acc ∨ ∃ r ∈ rows, key r = p.1 := by
  induction rows generalizing acc with
  | nil => exact Or.inl hp
  | cons r t ih =>
    rw [List.foldl_cons] at hp
    rcases ih (bump acc (key r)) hp with h1 | h1
    · rcases mem_bump h1 with h2 | h2
      · exact Or.inr ⟨r, List.mem_cons_self r t, h2.symm⟩
      · exact Or.inl h2
    · obtain ⟨r', hr', hkr'⟩ := h1
      exact Or.inr ⟨r', List.mem_cons_of_mem r hr', hkr'⟩

theorem foldl_bump_hasKey_mono {α : Type} (key : α → Value) (rows : List α)
    (acc : List (Value × Nat)) {k : Value} (h : ∃ p ∈ acc, p.1 = k) :
    ∃ p ∈ rows.foldl (fun a r => bump a (key r)) acc, p.1 = k := by
  induction rows generalizing acc with
  | nil => exact h
  | cons r t ih => exact ih (bump acc (key r)) (hasKey_bump_mono (key r) h)

theorem foldl_bump_hasKey {α : Type} (key : α → Value) (rows : List α)
    (acc : List (Value × Nat)) {r0 : α} (h : r0 ∈ rows) :
    ∃ p ∈ rows.foldl (fun a r => bump a (key r)) acc, p.1 = key r0 := by
  induction rows generalizing acc with
  | nil => simp at h
  | cons r t ih =>
    rcases List.mem_cons.mp h with h1 | h1
    · rw [List.foldl_cons]
      exact foldl_bump_hasKey_mono key t (bump acc (key r))
        (h1 ▸ hasKey_bump_self acc (key r))
    · rw [List.foldl_cons]
      exact ih (bump acc (key r)) h1

theorem KD_foldl_bump {α : Type} (key : α → Value) (rows : List α)
    (acc : List (Value × Nat)) (h : KD acc) :
    KD (rows.foldl (fun a r => bump a (key r)) acc) := by
  induction rows generalizing acc with
  | nil => exact h
  | cons r t ih => exact ih (bump acc (key r)) (KD_bump (key r) h)

theorem foldl_bump_ne_nil_aux {α : Type} (key : α → Value) (rows : List α)
    (acc : List (Value × Nat)) (h : acc ≠ []) :
    rows.foldl (fun a r => bump a (key r)) acc ≠ [] := by
  induction rows generalizing acc with
  | nil => exact h
  | cons r t ih => exact ih (bump acc (key r)) (bump_ne_nil acc (key r))

theorem pickMax_spec {l : List (Value × Nat)} {m : Value × Nat}
    (h : pickMax l = some m) : m ∈ l ∧ ∀ p ∈ l, p.2 ≤ m.2 := by
  cases l with
  | nil => simp [pickMax] at h
  | cons a t =>
    simp only [pickMax, Option.some.injEq] at h
    subst h
    have aux : ∀ (t : List (Value × Nat)) (h0 : Value × Nat),
        (t.foldl (fun best p => if best.2 < p.2 then p else best) h0 ∈ h0 :: t) ∧
        ∀ p ∈ h0 :: t,
          p.2 ≤ (t.foldl (fun best p => if best.2 < p.2 then p else best) h0).2 := by
      intro t
      induction t with
      | nil =>
        intro h0
        refine ⟨by simp, ?_⟩
        intro p hp
        simp only [List.foldl_nil]
        simp at hp
        rw [hp]
      | cons q t' ih =>
        intro h0
        rw [List.foldl_cons]
        obtain ⟨ihmem, ihle⟩ := ih (if h0.2 < q.2 then q else h0)
        constructor
        · rcases List.mem_cons.mp ihmem with h1 | h1
          · rw [h1]
            split
            · exact List.mem_cons_of_mem _ (List.mem_cons_self q t')
            · exact List.mem_cons_self h0 _
          · exact List.mem_cons_of_mem _ (List.mem_cons_of_mem _ h1)
        · intro p hp
          rcases List.mem_cons.mp hp with h1 | h1
          · have hh0 : h0.2 ≤ (if h0.2 < q.2 then q else h0).2 := by
              split
              · omega
              · exact le_refl _
            rw [h1]
            exact le_trans hh0 (ihle _ (List.mem_cons_self _ _))
          · rcases List.mem_cons.mp h1 with h2 | h2
            · have hq : q.2 ≤ (if h0.2 < q.2 then q else h0).2 := by
                split
                · exact le_refl _
                · omega
              rw [h2]
              exact le_trans hq (ihle _ (List.mem_cons_self _ _))
            · exact ihle p (List.mem_cons_of_mem _ h2)
    exact aux t a

theorem foldl_add_eq_sum {α : Type} (f : α → Int) (l : List α) (a : Int) :
    l.foldl (fun acc x => acc + f x) a = a + (l.map f).sum := by
  induction l generalizing a with
  | nil => simp
  | cons x t ih =>
    rw [List.foldl_cons, ih, List.map_cons, List.sum_cons]
    ring

/-- The common maximality argument for `most_common_set`: the set counts
built by the fold have a first-maximal entry whose key occurs among the
rows and whose count bounds every set's count. -/
theorem statsMax {α : Type} (key : α → Value) (rows : List α)
    (hNE : rows ≠ []) (hwf : ∀ r ∈ rows, ∃ s, key r = Value.vStr s) :
    ∃ m : Value × Nat,
      pickMax (rows.foldl (fun acc r => bump acc (key r)) []) = some m ∧
      (∃ r ∈ rows, key r = m.1) ∧
      (∃ s, m.1 = Value.vStr s) ∧
      ∀ r ∈ rows,
        (rows.filter fun x => key x = key r).length ≤
        (rows.filter fun x => key x = m.1).length := by
  set groups := rows.foldl (fun acc r => bump acc (key r)) [] with hg
  have hgne : groups ≠ [] := by
    cases rows with
    | nil => exact absurd rfl hNE
    | cons r t =>
      rw [hg, List.foldl_cons]
      exact foldl_bump_ne_nil_aux key t _ (bump_ne_nil [] (key r))
  obtain ⟨g0, gt, hgs⟩ : ∃ g0 gt, groups = g0 :: gt := by
    cases hG : groups with
    | nil => exact absurd hG hgne
    | cons g0 gt => exact ⟨g0, gt, rfl⟩
  have hpick : ∃ m, pickMax groups = some m := by
    rw [hgs]
    exact ⟨_, rfl⟩
  obtain ⟨m, hm⟩ := hpick
  obtain ⟨hmem, hle⟩ := pickMax_spec hm
  have hKD : KD groups := KD_foldl_bump key rows [] (by simp [KD])
  have hkeyrows : ∃ r ∈ rows, key r = m.1 := by
    rcases foldl_bump_mem key rows [] hmem with h1 | h1
    · simp at h1
    · exact h1
  refine ⟨m, hm, hkeyrows, ?_, ?_⟩
  · obtain ⟨r, hr, hkr⟩ := hkeyrows
    obtain ⟨s, hs⟩ := hwf r hr
    exact ⟨s, hkr ▸ hs⟩
  · intro r hr
    obtain ⟨p, hpmem, hpk⟩ := foldl_bump_hasKey key rows [] hr
    have hcount_p : (rows.filter fun x => key x = key r).length = p.2 := by
      have := foldl_bump_lookCount key rows [] (key r)
      rw [← hg] at this
      rw [← KD_lookup hKD hpmem, hpk]
      simpa [lookCount] using this.symm
    have hcount_m : (rows.filter fun x => key x = m.1).length = m.2 := by
      have := foldl_bump_lookCount key rows [] m.1
      rw [← hg] at this
      rw [← KD_lookup hKD hmem]
      simpa [lookCount] using this.symm
    rw [hcount_p, hcount_m]
    exact hle p hpmem

theorem wfStatsRow_set {r : Row} (h : wfStatsRow r = true) :
    ∃ s, r.set_name = Value.vStr s := by
  cases hsn : r.set_name with
  | vStr s => exact ⟨s, rfl⟩
  | vInt n => rw [wfStatsRow, hsn] at h; simp at h
  | vBool b => rw [wfStatsRow, hsn] at h; simp at h
  | vNull => rw [wfStatsRow, hsn] at h; simp at h

theorem wfCardDict_set {d : Dict} (h : wfCardDict d = true) :
    ∃ s, dgetD d "set_name" (.vStr "Unknown") = Value.vStr s := by
  rw [wfCardDict, Bool.and_eq_true] at h
  obtain ⟨h1, _⟩ := h
  rw [dgetD]
  cases hg : dget d "set_name" with
  | none => exact ⟨"Unknown", rfl⟩
  | some v =>
    cases v with
    | vStr s => exact ⟨s, rfl⟩
    | vInt n => rw [hg] at h1; simp at h1
    | vBool b => rw [hg] at h1; simp at h1
    | vNull => rw [hg] at h1; simp at h1

/-- C7: `get_stats` reports the number of records, the sum of quantities
and the favorite count exactly; on the empty collection it returns zeros
with most_common_set "None"; on a nonempty collection `most_common_set`
names a set that occurs among the records and whose record count is
maximal. Proved both for the repository implementation (`localGetStats`)
and for `calculate_collection_stats`. -/
theorem get_stats_spec :
    (∀ db : LocalDB, (∀ r ∈ db.rows, wfStatsRow r = true) →
      (localGetStats db).total_cards = db.rows.length ∧
      (localGetStats db).total_quantity
          = (db.rows.map fun r => intOf r.quantity).sum ∧
      (localGetStats db).favorites
          = (db.rows.filter fun r => r.is_favorite = Value.vInt 1).length ∧
      (db.rows = [] → localGetStats db = ⟨0, 0, 0, "None"⟩) ∧
      (db.rows ≠ [] →
        (∃ r ∈ db.rows,
          r.set_name = .vStr (localGetStats db).most_common_set) ∧
        ∀ r ∈ db.rows,
          (db.rows.filter fun x => x.set_name = r.set_name).length ≤
          (db.rows.filter fun x =>
            x.set_name = .vStr (localGetStats db).most_common_set).length)) ∧
    (∀ cards : List Dict, (∀ d ∈ cards, wfCardDict d = true) →
      (calculate_collection_stats cards).total_cards = cards.length ∧
      (calculate_collection_stats cards).total_quantity
          = (cards.map fun d => intOf (dgetD d "quantity" (.vInt 1))).sum ∧
      (calculate_collection_stats cards).favorites
          = (cards.filter fun d => pyTruthy (dgetD d "is_favorite" .vNull)).length ∧
      (cards = [] → calculate_collection_stats cards = ⟨0, 0, 0, "None", 0⟩) ∧
      (cards ≠ [] →
        (∃ d ∈ cards, dgetD d "set_name" (.vStr "Unknown")
            = .vStr (calculate_collection_stats cards).most_common_set) ∧
        ∀ d ∈ cards,
          (cards.filter fun x => dgetD x "set_name" (.vStr "Unknown")
              = dgetD d "set_name" (.vStr "Unknown")).length ≤
          (cards.filter fun x => dgetD x "set_name" (.vStr "Unknown")
              = .vStr (calculate_collection_stats cards).most_common_set).length)) := by
  constructor
  · intro db hwf
    refine ⟨rfl, ?_, rfl, ?_, ?_⟩
    · show db.rows.foldl (fun a r => a + intOf r.quantity) 0 = _
      rw [foldl_add_eq_sum (fun r => intOf r.quantity) db.rows 0]
      ring
    · intro h
      obtain ⟨rows, nid⟩ := db
      simp only at h
      subst h
      rfl
    · intro hne
      obtain ⟨m, hm, hkey, hstr, hmax⟩ :=
        statsMax (fun r => r.set_name) db.rows hne
          (fun r hr => wfStatsRow_set (hwf r hr))
      obtain ⟨s, hs⟩ := hstr
      have hmcs : (localGetStats db).most_common_set = strOf m.1 := by
        simp only [localGetStats, hm]
      have hvstr : Value.vStr (localGetStats db).most_common_set = m.1 := by
        rw [hmcs, hs]
        rfl
      constructor
      · obtain ⟨r, hr, hkr⟩ := hkey
        exact ⟨r, hr, by rw [hkr, hvstr]⟩
      · intro r hr
        have := hmax r hr
        rw [hvstr]
        exact this
  · intro cards hwf
    by_cases hc : cards = []
    · subst hc
      refine ⟨rfl, rfl, rfl, fun _ => rfl, fun h => absurd rfl h⟩
    · have hcE : cards.isEmpty = false := by
        cases cards with
        | nil => exact absurd rfl hc
        | cons a t => rfl
      refine ⟨?_, ?_, ?_, fun h => absurd h hc, ?_⟩
      · simp [calculate_collection_stats, hcE]
      · simp only [calculate_collection_stats, hcE, Bool.false_eq_true,
          if_false]
        rw [foldl_add_eq_sum (fun d => intOf (dgetD d "quantity" (.vInt 1)))
          cards 0]
        ring
      · simp [calculate_collection_stats, hcE]
      · intro hne
        obtain ⟨m, hm, hkey, hstr, hmax⟩ :=
          statsMax (fun d => dgetD d "set_name" (.vStr "Unknown")) cards hne
            (fun d hd => wfCardDict_set (hwf d hd))
        obtain ⟨s, hs⟩ := hstr
        have hmcs : (calculate_collection_stats cards).most_common_set
            = strOf m.1 := by
          simp only [calculate_collection_stats, hcE, Bool.false_eq_true,
            if_false, hm]
        have hvstr : Value.vStr (calculate_collection_stats cards).most_common_set
            = m.1 := by
          rw [hmcs, hs]
          rfl
        constructor
        · obtain ⟨d, hd, hkd⟩ := hkey
          exact ⟨d, hd, by rw [hkd, hvstr]⟩
        · intro d hd
          have := hmax d hd
          rw [hvstr]
          exact this

/-- C7 witness: on a concrete one-row database the statistics are exact
and the most common set occurs among the rows. -/
theorem get_stats_spec_witness :
    (localGetStats wdb1).total_cards = wdb1.rows.length ∧
    (∃ r ∈ wdb1.rows, r.set_name = .vStr (localGetStats wdb1).most_common_set) ∧
    (calculate_collection_stats [] = ⟨0, 0, 0, "None", 0⟩) := by
  have h := get_stats_spec.1 wdb1 (by decide)
  have h2 := get_stats_spec.2 [] (by simp)
  exact ⟨h.1, (h.2.2.2.2 (by decide)).1, h2.2.2.2.1 rfl⟩

/-! ### LIKE-pattern lemmas for `find_by_name` -/

theorem nil_mem_suffixes (s : List Char) : ([] : List Char) ∈ suffixes s := by
  induction s with
  | nil => simp [suffixes]
  | cons c cs ih => simp only [suffixes, List.mem_cons]; exact Or.inr ih

theorem likeM_cons_char {c : Char} (hc1 : c ≠ '%') (hc2 : c ≠ '_')
    (p : List Char) :
    (∀ d s', likeM (c :: p) (d :: s')
      = ((foldChar c == foldChar d) && likeM p s')) ∧
    likeM (c :: p) [] = false := by
  constructor
  · intro d s'
    simp [likeM, hc1, hc2]
  · simp [likeM, hc1, hc2]

theorem likeM_seg (t : List Char)
    (ht : (t.all fun c => c ≠ '%' && c ≠ '_') = true) :
    ∀ s, likeM (t ++ ['%']) s = prefixFold (t.map foldChar) (s.map foldChar) := by
  induction t with
  | nil =>
    intro s
    show (suffixes s).any (likeM []) = _
    have h1 : (suffixes s).any (likeM []) = true :=
      List.any_eq_true.mpr ⟨[], nil_mem_suffixes s, rfl⟩
    rw [h1]
    rfl
  | cons c t ih =>
    rw [List.all_cons, Bool.and_eq_true] at ht
    obtain ⟨hc, ht'⟩ := ht
    rw [Bool.and_eq_true] at hc
    have hc1 : c ≠ '%' := by simpa using hc.1
    have hc2 : c ≠ '_' := by simpa using hc.2
    intro s
    cases s with
    | nil =>
      rw [List.cons_append, (likeM_cons_char hc1 hc2 (t ++ ['%'])).2]
      rfl
    | cons d s' =>
      rw [List.cons_append, (likeM_cons_char hc1 hc2 (t ++ ['%'])).1 d s',
        ih ht' s']
      rfl

theorem suffixes_map (f : Char → Char) (l : List Char) :
    suffixes (l.map f) = (suffixes l).map (List.map f) := by
  induction l with
  | nil => rfl
  | cons c t ih => simp [suffixes, ih]

theorem any_congr_local {α : Type} {p q : α → Bool} (l : List α)
    (h : ∀ a ∈ l, p a = q a) : l.any p = l.any q := by
  induction l with
  | nil => rfl
  | cons x t ih =>
    simp only [List.any_cons]
    rw [h x (List.mem_cons_self x t),
      ih fun a ha => h a (List.mem_cons_of_mem x ha)]

theorem likeM_eq_containsCI (term : String) (hterm : noWild term = true)
    (nm : List Char) :
    likeM (likePat term) nm
      = subPlain (term.data.map foldChar) (nm.map foldChar) := by
  show (suffixes nm).any (likeM (term.data ++ ['%'])) = _
  rw [any_congr_local (suffixes nm) fun s' _ => likeM_seg term.data hterm s']
  rw [subPlain, suffixes_map, List.any_map]
  rfl

theorem clLe_total (a b : List Char) : clLe a b = true ∨ clLe b a = true := by
  induction a generalizing b with
  | nil => exact Or.inl rfl
  | cons x xs ih =>
    cases b with
    | nil => exact Or.inr rfl
    | cons y ys =>
      simp only [clLe]
      by_cases h1 : x.toNat < y.toNat
      · exact Or.inl (by simp [h1])
      · by_cases h2 : y.toNat < x.toNat
        · exact Or.inr (by simp [h2])
        · rcases ih ys with h | h
          · exact Or.inl (by simp [h1, h2, h])
          · exact Or.inr (by simp [h1, h2, h])

theorem clLe_trans (a b c : List Char) (h1 : clLe a b = true)
    (h2 : clLe b c = true) : clLe a c = true := by
  induction a generalizing b c with
  | nil => rfl
  | cons x xs ih =>
    cases b with
    | nil => simp [clLe] at h1
    | cons y ys =>
      cases c with
      | nil => simp [clLe] at h2
      | cons z zs =>
        simp only [clLe] at h1 h2 ⊢
        by_cases hxy : x.toNat < y.toNat
        · by_cases hyz : y.toNat < z.toNat
          · simp [show x.toNat < z.toNat by omega]
          · by_cases hzy : z.toNat < y.toNat
            · simp [hyz, hzy] at h2
            · simp [show x.toNat < z.toNat by omega]
        · by_cases hyx : y.toNat < x.toNat
          · simp [hxy, hyx] at h1
          · simp only [hxy, hyx, if_false] at h1
            by_cases hyz : y.toNat < z.toNat
            · simp [show x.toNat < z.toNat by omega]
            · by_cases hzy : z.toNat < y.toNat
              · simp [hyz, hzy] at h2
              · simp only [hyz, hzy, if_false] at h2
                have hxz1 : ¬ x.toNat < z.toNat := by omega
                have hxz2 : ¬ z.toNat < x.toNat := by omega
                simp only [hxz1, hxz2, if_false]
                exact ih ys zs h1 h2

instance : IsTotal Row rowNameLe :=
  ⟨fun a b => clLe_total (nameChars a) (nameChars b)⟩

instance : IsTrans Row rowNameLe :=
  ⟨fun a b c h1 h2 => clLe_trans (nameChars a) (nameChars b) (nameChars c) h1 h2⟩

theorem map_pgStar_id (l : List Char)
    (h : (l.all fun c => c ≠ '*' && c.toNat < 128) = true) :
    l.map pgStar = l := by
  induction l with
  | nil => rfl
  | cons c t ih =>
    rw [List.all_cons, Bool.and_eq_true] at h
    have hc : c ≠ '*' := by
      have := h.1
      rw [Bool.and_eq_true] at this
      simpa using this.1
    simp [pgStar, hc, ih h.2]

theorem setCol_id (r : Row) (k : String) (v : Value) :
    (setCol r k v).id = r.id := by
  unfold setCol
  split_ifs <;> rfl

theorem applyRow_id (data : Dict) (r : Row) : (applyRow r data).id = r.id := by
  induction data generalizing r with
  | nil => rfl
  | cons kv t ih =>
    have h : applyRow r (kv :: t)
        = applyRow (setCol r kv.1 (sqliteAdapt kv.2)) t := rfl
    rw [h, ih, setCol_id]

theorem find?_congr_local {α : Type} {p q : α → Bool} (l : List α)
    (h : ∀ a, p a = q a) : l.find? p = l.find? q := by
  induction l with
  | nil => rfl
  | cons x t ih =>
    simp only [List.find?]
    rw [h x, ih]

theorem wfRow_fields {r : Row} (h : wfRow r = true) :
    (∃ s, r.name = .vStr s ∧ 1 ≤ pyLen s ∧ pyLen s ≤ 100) ∧
    (∃ t, r.set_name = .vStr t ∧ pyLen t ≤ 100) ∧
    (r.card_number = .vNull ∨ ∃ u, r.card_number = .vStr u ∧ pyLen u ≤ 20) ∧
    (r.rarity = .vNull ∨ ∃ w, r.rarity = .vStr w ∧ pyLen w ≤ 50) ∧
    (r.is_favorite = .vInt 0 ∨ r.is_favorite = .vInt 1) := by
  rw [wfRow] at h
  simp only [Bool.and_eq_true] at h
  obtain ⟨⟨⟨⟨h1, h2⟩, h3⟩, h4⟩, h5⟩ := h
  refine ⟨?_, ?_, ?_, ?_, by simpa using h5⟩
  · cases hn : r.name with
    | vStr s =>
      rw [hn] at h1
      simp only [Bool.and_eq_true, decide_eq_true_eq] at h1
      exact ⟨s, rfl, h1.1, h1.2⟩
    | vInt n => rw [hn] at h1; simp at h1
    | vBool b => rw [hn] at h1; simp at h1
    | vNull => rw [hn] at h1; simp at h1
  · cases hn : r.set_name with
    | vStr t =>
      rw [hn] at h2
      simp only [decide_eq_true_eq] at h2
      exact ⟨t, rfl, h2⟩
    | vInt n => rw [hn] at h2; simp at h2
    | vBool b => rw [hn] at h2; simp at h2
    | vNull => rw [hn] at h2; simp at h2
  · cases hn : r.card_number with
    | vStr u =>
      rw [hn] at h3
      simp only [decide_eq_true_eq] at h3
      exact Or.inr ⟨u, rfl, h3⟩
    | vInt n => rw [hn] at h3; simp at h3
    | vBool b => rw [hn] at h3; simp at h3
    | vNull => exact Or.inl rfl
  · cases hn : r.rarity with
    | vStr w =>
      rw [hn] at h4
      simp only [decide_eq_true_eq] at h4
      exact Or.inr ⟨w, rfl, h4⟩
    | vInt n => rw [hn] at h4; simp at h4
    | vBool b => rw [hn] at h4; simp at h4
    | vNull => exact Or.inl rfl

theorem bind_ok_local {ε α β : Type} (a : α) (f : α → Except ε β) :
    (Except.ok a : Except ε α) >>= f = f a := rfl

theorem bind_error_local {ε α β : Type} (e : ε) (f : α → Except ε β) :
    (Except.error e : Except ε α) >>= f = Except.error e := rfl

theorem update_pipeline (i : Nat) (s t : String) (cn ra q fav da : Value)
    (hs1 : 1 ≤ pyLen s) (hs2 : pyLen s ≤ 100) (ht : pyLen t ≤ 100)
    (hcnF : pyFieldOptStr cn 0 20 = .ok cn)
    (hraF : pyFieldOptStr ra 0 50 = .ok ra)
    (b : Bool) (hfavF : pyFieldBool fav = .ok b) :
    update_card_data (rowToDict ⟨i, .vStr s, .vStr t, cn, ra, q, fav, da⟩)
        [("quantity", Value.vInt 5)]
      = .ok [("name", .vStr s), ("set_name", .vStr t), ("card_number", cn),
             ("rarity", ra), ("quantity", .vInt 5),
             ("is_favorite", .vBool b)] := by
  have hnameF : pyFieldOptStr (Value.vStr s) 1 100 = .ok (.vStr s) := by
    simp [pyFieldOptStr, hs1, hs2]
  have hsetF : pyFieldOptStr (Value.vStr t) 0 100 = .ok (.vStr t) := by
    simp [pyFieldOptStr, ht]
  simp only [update_card_data, rowToDict, vfield, dget, dset, dmerge,
    cardUpdateDumpExcludeUnset, hnameF, hsetF, hcnF, hraF, hfavF,
    validate_card_quantity, pyFieldIntGe1, bind_ok_local, bind_error_local]
  simp [dget, dset, dmerge, cardUpdateDumpExcludeUnset, vsetField, vnameField,
    validate_card_number, validate_card_rarity, validate_card_quantity,
    pyFieldIntGe1, bind_ok_local, hcnF, hraF, hfavF, hnameF, hsetF]
  cases fav with
  | vNull => simp [pyFieldBool] at hfavF
  | vStr s2 => simp [pyFieldBool] at hfavF
  | vInt n => rfl
  | vBool b2 => rfl

/-- C5: on the local backend, `update_card(id, quantity=5)` on an
existing well-formed card succeeds and changes only the quantity: the
updated record keeps every other field, including the immutable
`date_added`, every other card is untouched, and the id counter is
unchanged; for an id with no existing card it returns false and leaves
the database as it was. -/
theorem update_card_quantity_frame (db : LocalDB) (card_id : Nat) :
    (localFindById db card_id = none →
      sharedUpdateCard db card_id [("quantity", Value.vInt 5)]
        = .ok (false, db)) ∧
    (∀ row, localFindById db card_id = some row → wfRow row = true →
      ∃ db2,
        sharedUpdateCard db card_id [("quantity", Value.vInt 5)]
          = .ok (true, db2) ∧
        localFindById db2 card_id
          = some { row with quantity := Value.vInt 5 } ∧
        (∀ j, j ≠ card_id → localFindById db2 j = localFindById db j) ∧
        db2.nextId = db.nextId) := by
  constructor
  · intro hnone
    unfold sharedUpdateCard
    rw [hnone]
  · intro row hfind hwf
    obtain ⟨i, nm, sn, cn0, ra0, q0, fav0, da0⟩ := row
    obtain ⟨⟨s, hnm, hs1, hs2⟩, ⟨t, hsn, htl⟩, hcn, hra, hfav⟩ :=
      wfRow_fields hwf
    have hnm' : nm = Value.vStr s := hnm
    have hsn' : sn = Value.vStr t := hsn
    subst hnm'
    subst hsn'
    have hcn' : cn0 = Value.vNull ∨ ∃ u, cn0 = Value.vStr u ∧ pyLen u ≤ 20 := hcn
    have hra' : ra0 = Value.vNull ∨ ∃ w, ra0 = Value.vStr w ∧ pyLen w ≤ 50 := hra
    have hfav' : fav0 = Value.vInt 0 ∨ fav0 = Value.vInt 1 := hfav
    have hcnF : pyFieldOptStr cn0 0 20 = .ok cn0 := by
      rcases hcn' with h | ⟨u, h, hu⟩
      · rw [h]
        rfl
      · rw [h]
        simp [pyFieldOptStr, hu]
    have hraF : pyFieldOptStr ra0 0 50 = .ok ra0 := by
      rcases hra' with h | ⟨w, h, hw⟩
      · rw [h]
        rfl
      · rw [h]
        simp [pyFieldOptStr, hw]
    have hcnA : sqliteAdapt cn0 = cn0 := by
      rcases hcn' with h | ⟨u, h, _⟩ <;> rw [h] <;> rfl
    have hraA : sqliteAdapt ra0 = ra0 := by
      rcases hra' with h | ⟨w, h, _⟩ <;> rw [h] <;> rfl
    obtain ⟨b, hfavF, hfavA⟩ :
        ∃ b : Bool, pyFieldBool fav0 = .ok b ∧
          sqliteAdapt (Value.vBool b) = fav0 := by
      rcases hfav' with h | h
      · exact ⟨false, by rw [h]; rfl, by rw [h]; rfl⟩
      · exact ⟨true, by rw [h]; rfl, by rw [h]; rfl⟩
    have hupd := update_pipeline i s t cn0 ra0 q0 fav0 da0 hs1 hs2 htl
      hcnF hraF b hfavF
    have hfind' : db.rows.find? (fun r => r.id == card_id)
        = some ⟨i, .vStr s, .vStr t, cn0, ra0, q0, fav0, da0⟩ := hfind
    have hpred0 := List.find?_some hfind'
    have hpred : (i == card_id) = true := hpred0
    have hmem : (⟨i, .vStr s, .vStr t, cn0, ra0, q0, fav0, da0⟩ : Row)
        ∈ db.rows := List.mem_of_find?_eq_some hfind'
    have hany : db.rows.any (fun r => r.id == card_id) = true :=
      List.any_eq_true.mpr ⟨_, hmem, hpred⟩
    refine ⟨⟨db.rows.map fun r =>
        if r.id == card_id then
          applyRow r [("name", .vStr s), ("set_name", .vStr t),
            ("card_number", cn0), ("rarity", ra0), ("quantity", .vInt 5),
            ("is_favorite", .vBool b)]
        else r, db.nextId⟩, ?_, ?_, ?_, rfl⟩
    · unfold sharedUpdateCard
      rw [hfind]
      simp only [List.filter, ne_eq, bind_ok_local, localUpdate]
      simp [hany, cardsColumns, hupd, bind_ok_local]
    · have hcomp : ∀ jj : Nat,
          List.find? ((fun r : Row => r.id == jj) ∘ fun r : Row =>
            if r.id == card_id then
              applyRow r [("name", .vStr s), ("set_name", .vStr t),
                ("card_number", cn0), ("rarity", ra0),
                ("quantity", .vInt 5), ("is_favorite", .vBool b)]
            else r) db.rows
          = List.find? (fun r : Row => r.id == jj) db.rows := by
        intro jj
        apply find?_congr_local
        intro r
        show ((if r.id == card_id then applyRow r _ else r).id == jj)
          = (r.id == jj)
        split
        · rw [applyRow_id]
        · rfl
      unfold localFindById
      rw [List.find?_map, hcomp card_id, hfind']
      have hA1 : sqliteAdapt (Value.vStr s) = Value.vStr s := rfl
      have hA2 : sqliteAdapt (Value.vStr t) = Value.vStr t := rfl
      have hA3 : sqliteAdapt (Value.vInt 5) = Value.vInt 5 := rfl
      simp only [Option.map_some', hpred0, if_true]
      simp [applyRow, setCol, hA1, hA2, hA3, hcnA, hraA, hfavA]
    · intro j hj
      have hcomp : ∀ jj : Nat,
          List.find? ((fun r : Row => r.id == jj) ∘ fun r : Row =>
            if r.id == card_id then
              applyRow r [("name", .vStr s), ("set_name", .vStr t),
                ("card_number", cn0), ("rarity", ra0),
                ("quantity", .vInt 5), ("is_favorite", .vBool b)]
            else r) db.rows
          = List.find? (fun r : Row => r.id == jj) db.rows := by
        intro jj
        apply find?_congr_local
        intro r
        show ((if r.id == card_id then applyRow r _ else r).id == jj)
          = (r.id == jj)
        split
        · rw [applyRow_id]
        · rfl
      unfold localFindById
      rw [List.find?_map, hcomp j]
      cases hjf : db.rows.find? (fun r : Row => r.id == j) with
      | none => rfl
      | some r2 =>
        have hr2 : r2.id = j := by simpa using List.find?_some hjf
        have hfalse : (r2.id == card_id) = false := by
          simp [hr2, hj]
        simp [hfalse]
        intro h2
        exact absurd (hr2.symm.trans h2) hj

/-- C5 witness: on a concrete one-row database, updating the quantity to
5 keeps every other field of the row, and updating a missing id returns
false. -/
theorem update_card_quantity_frame_witness :
    (∃ db2, sharedUpdateCard wdb1 1 [("quantity", Value.vInt 5)]
        = .ok (true, db2) ∧
      localFindById db2 1 = some { wrow1 with quantity := Value.vInt 5 }) ∧
    sharedUpdateCard wdb1 99 [("quantity", Value.vInt 5)]
      = .ok (false, wdb1) := by
  obtain ⟨db2, hu, hf, _, _⟩ :=
    (update_card_quantity_frame wdb1 1).2 wrow1 (by decide) (by decide)
  exact ⟨⟨db2, hu, hf⟩, (update_card_quantity_frame wdb1 99).1 (by decide)⟩

end TCard
